import Mathlib

/-!
Verification of the dialogue core of the SaaS growth-advisor agent
(src/search_agent/growth_agent.py).  The Python methods are embedded as
pure Lean functions; the asynchronous response handler is modelled as a
trace of emitted events, and the two external collaborators (the text
generation capability and the web search capability) are modelled as
oracle functions that may raise, packaged in an environment record.
-/

namespace StartupWhisper

/-- Whitespace characters recognized by the Python regex class backslash-s
and by str.split and str.strip, in the ASCII range. -/
def isPySpace (c : Char) : Bool :=
  c = ' ' || c = '\t' || c = '\n' || c = '\x0b' || c = '\x0c' || c = '\r'

/-- Lowercasing as performed by str.lower, on ASCII letters. -/
def pyLower (s : String) : String :=
  String.mk (s.data.map Char.toLower)

/-- str.strip on a character list: remove leading and trailing whitespace. -/
def pyStripList (l : List Char) : List Char :=
  ((l.dropWhile isPySpace).reverse.dropWhile isPySpace).reverse

/-- str.strip. -/
def pyStrip (s : String) : String :=
  String.mk (pyStripList s.data)

/-- Worker for str.split with no separator argument.  The accumulator holds
the current non-whitespace run, reversed. -/
def pySplitGo : List Char → List Char → List (List Char)
  | [], acc => if acc.isEmpty then [] else [acc.reverse]
  | c :: rest, acc =>
      if isPySpace c then
        (if acc.isEmpty then [] else [acc.reverse]) ++ pySplitGo rest []
      else pySplitGo rest (c :: acc)

/-- str.split with no separator: the maximal runs of non-whitespace characters. -/
def pySplit (l : List Char) : List (List Char) :=
  pySplitGo l []

/-- len of buffer.split(), the word count used by the flush condition of
_stream_response (growth_agent.py line 128). -/
def wordCount (l : List Char) : Nat :=
  (pySplit l).length

/-- Worker for the regex findall of the pattern backslash-S+ backslash-s*.
Each token is a maximal non-whitespace run together with the whitespace run
that follows it.  The accumulator holds the token collected so far and the
flag records whether the accumulator has entered its trailing-whitespace
part.  Leading whitespace of the input belongs to no token and is skipped. -/
def tokenizeGo : List Char → List Char → Bool → List (List Char)
  | [], acc, _ => if acc.isEmpty then [] else [acc]
  | c :: rest, acc, inSp =>
      if isPySpace c then
        if acc.isEmpty then tokenizeGo rest acc inSp
        else tokenizeGo rest (acc ++ [c]) true
      else
        if inSp then acc :: tokenizeGo rest [c] false
        else tokenizeGo rest (acc ++ [c]) false

/-- re.findall of backslash-S+ backslash-s* over the message
(growth_agent.py line 122). -/
def tokenize (l : List Char) : List (List Char) :=
  tokenizeGo l [] false

/-- The sentence and clause terminators of growth_agent.py line 128. -/
def isTerminator (c : Char) : Bool :=
  c = '.' || c = '!' || c = '?' || c = ':' || c = ';' || c = '\n'

/-- chunk.endswith applied to the tuple of terminator characters: a test on
the final character. -/
def endsWithTerm (l : List Char) : Bool :=
  match l.getLast? with
  | some c => isTerminator c
  | none => false

/-- The buffer loop of _stream_response (growth_agent.py lines 125-134):
append each token to the buffer and flush it as one chunk when it holds at
least three words or the token ends with a terminator; flush any non-empty
remainder at the end. -/
def streamGo : List (List Char) → List Char → List (List Char)
  | [], buffer => if buffer.isEmpty then [] else [buffer]
  | tok :: rest, buffer =>
      let buf2 := buffer ++ tok
      if 3 ≤ wordCount buf2 || endsWithTerm tok then buf2 :: streamGo rest []
      else streamGo rest buf2

/-- _stream_response (growth_agent.py lines 118-134) as a pure function from
the message to the list of chunks emitted on the stream. -/
def streamResponse (message : String) : List String :=
  (streamGo (tokenize message.data) []).map (fun l => String.mk l)

theorem tokenizeGo_join (l : List Char) : ∀ (acc : List Char) (inSp : Bool),
    (tokenizeGo l acc inSp).flatten =
      (if acc.isEmpty then l.dropWhile isPySpace else acc ++ l) := by
  induction l with
  | nil =>
      intro acc inSp
      cases acc <;> simp [tokenizeGo]
  | cons c rest ih =>
      intro acc inSp
      by_cases hc : isPySpace c
      · cases acc with
        | nil => simp [tokenizeGo, hc, ih]
        | cons a as =>
            simp only [tokenizeGo, hc, if_true, List.isEmpty_cons, List.dropWhile_cons]
            simp [ih, hc]
      · cases acc with
        | nil =>
            cases inSp <;>
              simp [tokenizeGo, hc, ih, List.dropWhile_cons]
        | cons a as =>
            cases inSp <;>
              simp [tokenizeGo, hc, ih, List.dropWhile_cons, List.append_assoc]

theorem tokenize_join (l : List Char) : (tokenize l).flatten = l.dropWhile isPySpace := by
  simp [tokenize, tokenizeGo_join]

theorem streamGo_join (toks : List (List Char)) :
    ∀ buffer, (streamGo toks buffer).flatten = buffer ++ toks.flatten := by
  induction toks with
  | nil =>
      intro buffer
      by_cases hb : buffer.isEmpty
      · simp [streamGo, hb, List.isEmpty_iff.mp hb]
      · simp [streamGo, hb]
  | cons tok rest ih =>
      intro buffer
      by_cases hcond : (3 ≤ wordCount (buffer ++ tok) || endsWithTerm tok) = true
      · simp [streamGo, hcond, ih, List.append_assoc]
      · simp [streamGo, hcond, ih, List.append_assoc]

theorem join_map_mk_aux (l : List (List Char)) : ∀ a : List Char,
    List.foldl (fun r s => r ++ s) (String.mk a) (l.map (fun x => String.mk x)) =
      String.mk (a ++ l.flatten) := by
  induction l with
  | nil => intro a; simp
  | cons x xs ih =>
      intro a
      have hmk : String.mk a ++ String.mk x = String.mk (a ++ x) := rfl
      simp only [List.map_cons, List.foldl_cons, hmk, ih, List.flatten, List.append_assoc]

theorem join_map_mk (l : List (List Char)) :
    String.join (l.map (fun x => String.mk x)) = String.mk l.flatten := by
  have h := join_map_mk_aux l []
  simpa [String.join] using h

/-- Claim C1, counterexample: concatenating the chunks emitted by the
response streamer does not reproduce an input that begins with whitespace,
because the findall tokenization attaches whitespace only after a
non-whitespace run and skips leading whitespace entirely. -/
theorem stream_roundtrip_cex : String.join (streamResponse " x") ≠ " x" := by
  decide

/-- Claim C1, amended: concatenating the chunks emitted by the response
streamer reproduces the input with its leading whitespace removed; no other
character is added, dropped or reordered, so an input that does not begin
with whitespace is reproduced exactly. -/
theorem stream_roundtrip_amended (message : String) :
    String.join (streamResponse message) =
      String.mk (message.data.dropWhile isPySpace) := by
  unfold streamResponse
  rw [join_map_mk, streamGo_join]
  simp [tokenize_join]

theorem endsWithTerm_append (buffer tok : List Char) (h : tok ≠ []) :
    endsWithTerm (buffer ++ tok) = endsWithTerm tok := by
  unfold endsWithTerm
  rw [List.getLast?_append]
  cases htok : tok.getLast? with
  | none => exact absurd (List.getLast?_eq_none_iff.mp htok) h
  | some c => simp

theorem tokenizeGo_ne_nil (l : List Char) : ∀ (acc : List Char) (inSp : Bool),
    (inSp = true → acc ≠ []) → ∀ t, t ∈ tokenizeGo l acc inSp → t ≠ [] := by
  induction l with
  | nil =>
      intro acc inSp h t ht
      by_cases ha : acc.isEmpty
      · simp [tokenizeGo, ha] at ht
      · simp [tokenizeGo, ha] at ht
        subst ht
        simpa [List.isEmpty_iff] using ha
  | cons c rest ih =>
      intro acc inSp h t ht
      by_cases hc : isPySpace c
      · by_cases ha : acc.isEmpty
        · simp [tokenizeGo, hc, ha] at ht
          exact ih acc inSp h t ht
        · simp [tokenizeGo, hc, ha] at ht
          exact ih (acc ++ [c]) true (fun _ => by simp) t ht
      · cases inSp with
        | true =>
            simp [tokenizeGo, hc] at ht
            rcases ht with rfl | ht
            · exact h rfl
            · exact ih [c] false (fun hff => Bool.noConfusion hff) t ht
        | false =>
            simp [tokenizeGo, hc] at ht
            exact ih (acc ++ [c]) false (fun hff => Bool.noConfusion hff) t ht

theorem streamGo_bound (toks : List (List Char)) :
    ∀ buffer, (∀ t ∈ toks, t ≠ []) →
      ∀ c ∈ (streamGo toks buffer).dropLast,
        3 ≤ wordCount c ∨ endsWithTerm c = true := by
  induction toks with
  | nil =>
      intro buffer _ c hc
      by_cases hb : buffer.isEmpty <;> simp [streamGo, hb] at hc
  | cons tok rest ih =>
      intro buffer htoks c hc
      have htok : tok ≠ [] := htoks tok (by simp)
      have hrest : ∀ t ∈ rest, t ≠ [] := fun t ht => htoks t (by simp [ht])
      by_cases hcond :
          (decide (3 ≤ wordCount (buffer ++ tok)) || endsWithTerm tok) = true
      · rw [streamGo] at hc
        simp only [hcond, if_true] at hc
        cases hsr : streamGo rest [] with
        | nil => rw [hsr] at hc; simp at hc
        | cons y ys =>
            rw [hsr, List.dropLast_cons_of_ne_nil (by simp)] at hc
            rcases List.mem_cons.mp hc with rfl | hc2
            · rcases Bool.or_eq_true_iff.mp hcond with hle | hterm
              · exact Or.inl (of_decide_eq_true hle)
              · exact Or.inr ((endsWithTerm_append buffer tok htok).trans hterm)
            · exact ih [] hrest c (by rw [hsr]; exact hc2)
      · rw [streamGo] at hc
        simp only [hcond, if_false] at hc
        exact ih (buffer ++ tok) hrest c hc

/-- Claim C6: every chunk emitted by the response streamer, except possibly
the last, contains at least three words or else ends with a sentence or
clause terminator (the final character of its final token). -/
theorem stream_chunk_min_words (message : String) (c : String)
    (hc : c ∈ (streamResponse message).dropLast) :
    3 ≤ wordCount c.data ∨ endsWithTerm c.data = true := by
  unfold streamResponse at hc
  rw [← List.map_dropLast] at hc
  rcases List.mem_map.mp hc with ⟨l, hl, rfl⟩
  have htoks := tokenizeGo_ne_nil message.data [] false (fun hff => Bool.noConfusion hff)
  show 3 ≤ wordCount l ∨ endsWithTerm l = true
  exact streamGo_bound (tokenize message.data) [] (fun t ht => htoks t ht) l hl

/-- Claim C6, witness: a concrete run of the streamer whose first chunk is
flushed by the three-word rule. -/
theorem stream_chunk_min_words_witness :
    "one two three " ∈ (streamResponse "one two three four").dropLast ∧
      (3 ≤ wordCount "one two three ".data ∨
        endsWithTerm "one two three ".data = true) :=
  ⟨by decide, stream_chunk_min_words "one two three four" "one two three " (by decide)⟩

/-- Occurrence of the pattern at some position of the haystack. -/
def subOccurs (pat : List Char) : List Char → Bool
  | [] => pat.isEmpty
  | c :: rest => List.isPrefixOf pat (c :: rest) || subOccurs pat rest

/-- Substring occurrence, the unanchored re.search of a literal pattern and
the Python in operator on strings. -/
def containsSub (s pat : String) : Bool :=
  subOccurs pat.data s.data

/-- Anchored occurrence, re.search of a pattern starting with a caret. -/
def startsWithSub (s pat : String) : Bool :=
  List.isPrefixOf pat.data s.data

/-- The explicit-request regex patterns of _needs_search (growth_agent.py
lines 332-341), each reduced to the substring tests it is equivalent to:
the optional groups of pattern 3 and pattern 8 make them equivalent to the
occurrence of their mandatory part. -/
def explicitSearchMatch (q : String) : Bool :=
  containsSub q "search for" ||
  containsSub q "look up" ||
  containsSub q "find" ||
  containsSub q "research" ||
  containsSub q "google" ||
  (containsSub q "can you search" || containsSub q "can you look" ||
    containsSub q "can you find") ||
  (["show", "tell"].any fun a => ["about", "the"].any fun b =>
    containsSub q (a ++ " me " ++ b)) ||
  (containsSub q "get information" || containsSub q "get me information")

def whFirstWords : List String :=
  ["what", "who", "where", "when", "which"]

def whSecondWords : List String :=
  ["is", "are", "was", "were", "do", "does", "did", "has", "have", "had",
   "can", "could", "should", "would", "will"]

def whContracted : List String :=
  ["what\x27s", "who\x27s", "where\x27s", "when\x27s"]

def howSecondWords : List String :=
  ["do", "does", "did", "can", "could", "would", "should", "to", "many",
   "much", "long"]

def requestHeads : List String :=
  ["get", "tell", "show"]

def requestDeterminers : List String :=
  ["the", "a", "some", "all"]

def listHeads : List String :=
  ["list", "give", "give me", "name", "what are"]

def listQuantifiers : List String :=
  ["", " the", " some", " a few", " all"]

def listObjects : List String :=
  ["examples", "types", "kinds", "categories", "options", "alternatives",
   "companies", "tools", "solutions"]

def infoRequestHeads : List String :=
  ["i need", "i want", "i\x27m looking for"]

def infoRequestQuantifiers : List String :=
  ["", " some", " more"]

def recencyMarkers : List String :=
  ["current", "recent", "latest", "today", "this week", "this month",
   "this year", "trending", "new"]

def comparisonMarkers : List String :=
  ["compare", "comparison", "versus", "vs", "difference between", "better"]

/-- The factual-question regex patterns of _needs_search (growth_agent.py
lines 349-371), each reduced to the prefix or substring tests it is
equivalent to. -/
def factualQuestionMatch (q : String) : Bool :=
  (whFirstWords.any fun a => whSecondWords.any fun b =>
    startsWithSub q (a ++ " " ++ b)) ||
  (whContracted.any fun a => startsWithSub q a) ||
  (howSecondWords.any fun b => startsWithSub q ("how " ++ b)) ||
  (requestHeads.any fun a => ["", " me"].any fun m =>
    requestDeterminers.any fun d => startsWithSub q (a ++ m ++ " " ++ d)) ||
  (listHeads.any fun a => listQuantifiers.any fun b =>
    listObjects.any fun c2 => containsSub q (a ++ b ++ " " ++ c2)) ||
  (infoRequestHeads.any fun a => infoRequestQuantifiers.any fun b =>
    containsSub q (a ++ b ++ " information")) ||
  (recencyMarkers.any fun w => containsSub q w) ||
  (comparisonMarkers.any fun w => containsSub q w)

/-- The continuation words of the short-query heuristic
(growth_agent.py line 377). -/
def continuationWords : List String :=
  ["their", "they", "them", "these", "those", "this", "that", "it", "its",
   "any", "the"]

/-- The information words of the short-query heuristic
(growth_agent.py line 378). -/
def informationWords : List String :=
  ["contact", "email", "website", "address", "phone", "details", "info",
   "information"]

/-- The universal search indicators of _needs_search (growth_agent.py
lines 394-410). -/
def universalSearchIndicators : List String :=
  ["market", "industry", "statistics", "data", "report", "survey",
   "research", "analysis", "trend", "growth", "forecast", "projection",
   "estimate",
   "contact", "email", "phone", "address", "website", "form", "application",
   "directory", "list", "database", "source", "reference",
   "conference", "event", "summit", "webinar", "schedule", "agenda",
   "calendar", "date", "time", "deadline", "upcoming", "this week",
   "this month", "this year",
   "competitor", "alternative", "similar", "leader", "trending", "popular",
   "top", "review", "rating", "ranking", "best", "worst", "versus", "vs"]

/-- The final indicator loop of _needs_search (growth_agent.py
lines 413-420): a substring match of any indicator returns true, otherwise
the function returns false. -/
def universalIndicatorCheck (q : String) : Except Unit Bool :=
  Except.ok (universalSearchIndicators.any fun ind => containsSub q ind)

/-- The word list of _needs_search, query_lower.split()
(growth_agent.py line 374). -/
def needsSearchWords (q : String) : List String :=
  (pySplit q.data).map (fun w => String.mk w)

/-- The short-query heuristic of _needs_search (growth_agent.py
lines 375-383).  Accessing words[0] on the empty word list raises an
IndexError, modelled by the error value; when the heuristic does not fire,
control falls through to the indicator loop. -/
def shortQueryCheck (q : String) (words : List String) : Except Unit Bool :=
  match words with
  | [] => Except.error ()
  | w :: _ =>
      if continuationWords.contains w ||
          words.any (fun x => informationWords.contains x) then
        Except.ok true
      else universalIndicatorCheck q

/-- The body of _needs_search after lowercasing and stripping
(growth_agent.py lines 331-420). -/
def needsSearchCore (q : String) : Except Unit Bool :=
  if explicitSearchMatch q then Except.ok true
  else
    if (needsSearchWords q).length ≤ 3 then shortQueryCheck q (needsSearchWords q)
    else
      if factualQuestionMatch q then Except.ok true
      else universalIndicatorCheck q

/-- _needs_search (growth_agent.py lines 324-420): lowercase and strip the
query, then run the layered heuristic. -/
def needsSearch (query : String) : Except Unit Bool :=
  needsSearchCore (pyStrip (pyLower query))

/-- One search result record of the external search collaborator. -/
structure SearchItem where
  title : String
  url : String
  snippet : String
deriving DecidableEq, Repr

/-- The structured record parsed from the hypothesis-generation response.
Each key of the JSON object may be absent, hence the optional fields; the
caller reads the description with a dict get and a default. -/
structure Hypothesis where
  description : Option String
  target_segment : Option String
  growth_lever : Option String
deriving DecidableEq, Repr

/-- One profile record of the in-memory user store
(growth_agent.py lines 81-85). -/
structure UserData where
  profile_complete : Bool
  startup_idea : String
  creation_time : String
deriving DecidableEq, Repr

/-- Events observable on the response handler.  A chunk event is an
emit_chunk on the FINAL_RESPONSE text stream; streamComplete is the close
of that stream and handlerComplete the overall completion signal. -/
inductive Event where
  | chunk (text : String)
  | textBlock (label : String) (text : String)
  | jsonBlock (label : String) (results : List SearchItem)
  | streamComplete
  | handlerComplete
deriving DecidableEq, Repr

/-- The two external collaborators and the ambient clock.  modelQuery is
the generation capability and searchCall the search capability; either may
raise, modelled by the error value.  jsonParse models json.loads on the
extracted text: none covers both malformed input and a raised exception.
now is the creation timestamp issued by datetime.now().isoformat(). -/
structure Env where
  modelQuery : String → Except Unit String
  searchCall : String → Except Unit (Option (List SearchItem))
  jsonParse : String → Option Hypothesis
  now : String

/-- The in-memory profile store, keyed by session identifier. -/
def Mem := String → Option UserData

/-- Store update at one key. -/
def memUpdate (mem : Mem) (k : String) (v : UserData) : Mem :=
  fun s => if s = k then some v else mem s

/-- The chunk events produced by streaming one message on the final
response stream. -/
def chunkEvents (message : String) : List Event :=
  (streamResponse message).map Event.chunk

/-- The regex search for a brace-delimited segment (growth_agent.py
line 307): the pattern matches from the first opening brace that precedes
the last closing brace, up to that last closing brace, or fails. -/
def extractBraced (l : List Char) : Option (List Char) :=
  match l.findIdx? (fun c => c = '{') with
  | none => none
  | some i =>
      match l.reverse.findIdx? (fun c => c = '}') with
      | none => none
      | some jr =>
          let j := l.length - 1 - jr
          if i < j then some ((l.take (j + 1)).drop i) else none

/-- The fixed fallback record of _generate_simple_hypothesis
(growth_agent.py lines 318-322). -/
def fallbackHypothesis : Hypothesis :=
  ⟨some "a SaaS solution", some "businesses", some "product-led growth"⟩

/-- The text handed to json.loads by the parse step of
_generate_simple_hypothesis: the extracted brace-delimited segment when the
regex matches, otherwise the whole response text. -/
def hypothesisParseInput (text : String) : String :=
  match extractBraced text.data with
  | some seg => String.mk seg
  | none => text

/-- The parse step of _generate_simple_hypothesis (growth_agent.py
lines 305-322): parse the selected text, and on any failure return the
fixed fallback record. -/
def generateHypothesisFromText (jsonParse : String → Option Hypothesis)
    (text : String) : Hypothesis :=
  match jsonParse (hypothesisParseInput text) with
  | some h => h
  | none => fallbackHypothesis

/-- The hypothesis-generation prompt of growth_agent.py lines 290-300.
The indentation of the Python triple-quoted literal is abbreviated. -/
def hypothesisPrompt (idea : String) : String :=
  "Based solely on this SaaS startup idea: \"" ++ idea ++ "\"\n" ++
  "Generate a very simple JSON with just:\n" ++
  "1. A short description (under 7 words)\n" ++
  "2. Primary customer segment (1 segment)\n" ++
  "3. Main growth lever (1 channel)\n" ++
  "Format as a JSON with keys: \"description\", \"target_segment\", \"growth_lever\"\n" ++
  "Keep all values extremely concise."

/-- The standard-advice prompt of growth_agent.py lines 266-276.
The indentation of the Python triple-quoted literal is abbreviated. -/
def advicePrompt (idea question : String) : String :=
  "As a growth advisor for a SaaS founder building: " ++ idea ++ "\n" ++
  "Their question: " ++ question ++ "\n" ++
  "Provide extremely concise growth advice (2-3 sentences maximum) that:\n" ++
  "1. Directly answers their question\n" ++
  "2. Gives 1 clear, actionable next step\n" ++
  "Use a casual, direct tone. No introductions or pleasantries needed."

/-- json.dumps of a list of search result records, as embedded in the
search-augmented prompt; the exact layout of the serialization is
abbreviated. -/
def jsonDumpsItem (it : SearchItem) : String :=
  "\x7b\"title\": \"" ++ it.title ++ "\", \"url\": \"" ++ it.url ++
    "\", \"snippet\": \"" ++ it.snippet ++ "\"\x7d"

def jsonDumps (l : List SearchItem) : String :=
  "[" ++ String.intercalate ", " (l.map jsonDumpsItem) ++ "]"

/-- The search-augmented prompt of growth_agent.py lines 215-231.
The indentation of the Python triple-quoted literal is abbreviated. -/
def enhancedPrompt (idea question : String) (top : List SearchItem) : String :=
  "As a growth advisor for a SaaS founder building: " ++ idea ++ "\n" ++
  "Their question: " ++ question ++ "\n" ++
  "Relevant search results:\n" ++ jsonDumps top ++ "\n" ++
  "Provide ultra-concise advice (2-3 sentences maximum) that:\n" ++
  "1. Directly answers their question using the search data\n" ++
  "2. Gives 1 specific action step\n" ++
  "No introductions or explanations. Be extremely direct and practical.\n" ++
  "Clearly reference the source of information (e.g., \"According to [source]\").\n" ++
  "Your response should cite specific data from the search results."

/-- _handle_onboarding (growth_agent.py lines 137-164).  Returns the
updated profile record together with the emitted events and the outcome;
an exception of the generation capability propagates after the startup
idea has been stored but before profile_complete is set. -/
def handleOnboarding (env : Env) (ud : UserData) (prompt : String) :
    UserData × List Event × Except Unit Unit :=
  if (pyStrip prompt).length < 5 then
    (⟨ud.profile_complete, "Unspecified SaaS startup", ud.creation_time⟩,
     chunkEvents "Got it. What specific aspect of your SaaS business do you need help with today?",
     Except.ok ())
  else
    match env.modelQuery (hypothesisPrompt prompt) with
    | Except.error e =>
        (⟨ud.profile_complete, prompt, ud.creation_time⟩, [], Except.error e)
    | Except.ok text =>
        (⟨true, prompt, ud.creation_time⟩,
         chunkEvents ("Thanks! I see you\x27re building " ++
           (generateHypothesisFromText env.jsonParse text).description.getD "a SaaS product" ++
           ". What growth challenge can I help with today?"),
         Except.ok ())

/-- _provide_growth_advice (growth_agent.py lines 256-284): one generation
call on the standard-advice prompt, streamed as chunks; a raised exception
propagates. -/
def provideGrowthAdvice (env : Env) (ud : UserData) (prompt : String) :
    List Event × Except Unit Unit :=
  match env.modelQuery (advicePrompt ud.startup_idea prompt) with
  | Except.error e => ([], Except.error e)
  | Except.ok response => (chunkEvents response, Except.ok ())

/-- The first regex substitution of _clean_search_query (growth_agent.py
line 425): the leading search command followed by mandatory whitespace is
removed, trying the alternatives in pattern order. -/
def stripSearchCommandGo : List String → List Char → List Char
  | [], l => l
  | p :: ps, l =>
      if List.isPrefixOf p.data l then
        match l.drop p.data.length with
        | [] => stripSearchCommandGo ps l
        | c :: rest2 =>
            if isPySpace c then List.dropWhile isPySpace (c :: rest2)
            else stripSearchCommandGo ps l
      else stripSearchCommandGo ps l

def stripSearchCommand (l : List Char) : List Char :=
  stripSearchCommandGo ["search for", "look up", "find", "research"] l

/-- Word characters of the regex word-boundary class. -/
def isWordChar (c : Char) : Bool :=
  c.isAlpha || c.isDigit || c = '_'

def fillerPhrases : List String :=
  ["please", "can you", "could you", "i want to know", "tell me", "i need"]

/-- A filler phrase matches at the head of the list when it is a prefix and
the character after it is a word boundary. -/
def phraseMatchAt (l : List Char) (p : String) : Bool :=
  List.isPrefixOf p.data l &&
    (match l.drop p.data.length with
     | [] => true
     | c :: _ => !isWordChar c)

/-- The second regex substitution of _clean_search_query (growth_agent.py
line 428): remove word-bounded filler phrases, scanning left to right.
The flag records whether the current position follows a word boundary; the
fuel argument bounds the recursion by the input length. -/
def removeFillersGo : Nat → Bool → List Char → List Char
  | 0, _, l => l
  | _ + 1, _, [] => []
  | fuel + 1, atBoundary, c :: rest =>
      if atBoundary then
        match fillerPhrases.find? (fun p => phraseMatchAt (c :: rest) p) with
        | some p => removeFillersGo fuel false ((c :: rest).drop p.data.length)
        | none => c :: removeFillersGo fuel (!isWordChar c) rest
      else
        c :: removeFillersGo fuel (!isWordChar c) rest

def removeFillers (l : List Char) : List Char :=
  removeFillersGo l.length true l

/-- The third regex substitution of _clean_search_query (growth_agent.py
line 431): collapse whitespace runs to single spaces. -/
def collapseWsGo : Bool → List Char → List Char
  | _, [] => []
  | prevSp, c :: rest =>
      if isPySpace c then
        if prevSp then collapseWsGo true rest
        else ' ' :: collapseWsGo true rest
      else c :: collapseWsGo false rest

/-- _clean_search_query (growth_agent.py lines 422-433). -/
def cleanSearchQuery (query : String) : String :=
  let lowered := pyLower query
  let c1 := stripSearchCommand lowered.data
  let c2 := removeFillers c1
  String.mk (pyStripList (collapseWsGo false c2))

/-- The search query assembled by _provide_search_enhanced_advice
(growth_agent.py lines 183-187). -/
def searchQueryOf (ud : UserData) (prompt : String) : String :=
  cleanSearchQuery prompt ++ " " ++ ("SaaS " ++ ud.startup_idea)

/-- The zero-result branch of _provide_search_enhanced_advice
(growth_agent.py lines 240-246): a SEARCH_ERROR notice followed by the
standard-advice path. -/
def fallbackZero (env : Env) (ud : UserData) (prompt : String) :
    List Event × Except Unit Unit :=
  (Event.textBlock "SEARCH_ERROR" "No search results found. Here\x27s my best advice:" ::
     (provideGrowthAdvice env ud prompt).1,
   (provideGrowthAdvice env ud prompt).2)

/-- The try block of _provide_search_enhanced_advice (growth_agent.py
lines 192-246): the search call, the result-shape test, and either the
search-augmented generation or the zero-result fallback.  An error value is
an exception escaping the try block. -/
def searchEnhancedBody (env : Env) (ud : UserData) (prompt : String) :
    List Event × Except Unit Unit :=
  match env.searchCall (searchQueryOf ud prompt) with
  | Except.error e => ([], Except.error e)
  | Except.ok res =>
      match res with
      | none => fallbackZero env ud prompt
      | some results =>
          if results.isEmpty then fallbackZero env ud prompt
          else
            match env.modelQuery (enhancedPrompt ud.startup_idea prompt (results.take 3)) with
            | Except.error e =>
                ([Event.jsonBlock "SEARCH_RESULTS" (results.take 3)], Except.error e)
            | Except.ok resp =>
                (Event.jsonBlock "SEARCH_RESULTS" (results.take 3) :: chunkEvents resp,
                 Except.ok ())

/-- _provide_search_enhanced_advice (growth_agent.py lines 167-253): the
SEARCH_NOTIFICATION block, then the try block; any exception inside it is
caught and answered with a SEARCH_ERROR notice and the standard-advice
path, whose own outcome propagates. -/
def provideSearchEnhancedAdvice (env : Env) (ud : UserData) (prompt : String) :
    List Event × Except Unit Unit :=
  match searchEnhancedBody env ud prompt with
  | (tr, Except.ok _) =>
      (Event.textBlock "SEARCH_NOTIFICATION" "Searching for market data..." :: tr,
       Except.ok ())
  | (tr, Except.error _) =>
      (Event.textBlock "SEARCH_NOTIFICATION" "Searching for market data..." ::
         (tr ++
          Event.textBlock "SEARCH_ERROR" "Search couldn\x27t be completed. Here\x27s my best advice:" ::
            (provideGrowthAdvice env ud prompt).1),
       (provideGrowthAdvice env ud prompt).2)

/-- The greeting and single onboarding question sent on first contact
(growth_agent.py line 88). -/
def introMessage : String :=
  "Hey! What\x27s your SaaS startup idea in 1-2 sentences?"

/-- Closing the FINAL_RESPONSE stream and signalling completion
(growth_agent.py lines 114-115).  These lines run after the dispatch and
are skipped when an exception propagates out of the chosen branch. -/
def finishRun (mem : Mem) (tr : List Event) (r : Except Unit Unit) :
    Mem × List Event × Except Unit Unit :=
  match r with
  | Except.ok _ => (mem, tr ++ [Event.streamComplete, Event.handlerComplete], Except.ok ())
  | Except.error e => (mem, tr, Except.error e)

/-- assist (growth_agent.py lines 56-115) as a function from the store, the
session identifier and the query to the updated store, the event trace and
the outcome of the request. -/
def assist (env : Env) (mem : Mem) (userId prompt : String) :
    Mem × List Event × Except Unit Unit :=
  match mem userId with
  | none =>
      finishRun (memUpdate mem userId ⟨false, "", env.now⟩)
        (chunkEvents introMessage) (Except.ok ())
  | some ud =>
      match needsSearch prompt with
      | Except.error e => (mem, [], Except.error e)
      | Except.ok ns =>
          if ud.profile_complete = false then
            finishRun (memUpdate mem userId (handleOnboarding env ud prompt).1)
              (handleOnboarding env ud prompt).2.1 (handleOnboarding env ud prompt).2.2
          else if ns then
            finishRun mem (provideSearchEnhancedAdvice env ud prompt).1
              (provideSearchEnhancedAdvice env ud prompt).2
          else
            finishRun mem (provideGrowthAdvice env ud prompt).1
              (provideGrowthAdvice env ud prompt).2

/-- A sequence of requests, each a session identifier and a query, served
in order against the store. -/
def runRequests (env : Env) : Mem → List (String × String) → Mem
  | mem, [] => mem
  | mem, (u, p) :: rest => runRequests env (assist env mem u p).1 rest

/-- A stub environment whose collaborators always succeed trivially. -/
def stubEnv : Env :=
  ⟨fun _ => Except.ok "", fun _ => Except.ok none, fun _ => none, "t0"⟩

/-- A stub environment whose generation capability always raises. -/
def errEnv : Env :=
  ⟨fun _ => Except.error (), fun _ => Except.ok none, fun _ => none, "t0"⟩

theorem dropWhile_exists_not (p : Char → Bool) (l : List Char)
    (h : l.dropWhile p ≠ []) : ∃ c ∈ l.dropWhile p, p c = false := by
  induction l with
  | nil => simp at h
  | cons c rest ih =>
      by_cases hc : p c
      · rw [List.dropWhile_cons_of_pos hc] at h ⊢
        exact ih h
      · rw [List.dropWhile_cons_of_neg hc]
        exact ⟨c, by simp, by simpa using hc⟩

theorem pySplitGo_ne_nil (l : List Char) : ∀ acc : List Char,
    ((∃ c ∈ l, isPySpace c = false) ∨ acc ≠ []) → pySplitGo l acc ≠ [] := by
  induction l with
  | nil =>
      intro acc h
      rcases h with h | h
      · simp at h
      · simp [pySplitGo, List.isEmpty_iff, h]
  | cons c rest ih =>
      intro acc h
      by_cases hc : isPySpace c
      · by_cases ha : acc.isEmpty
        · have hrest : ∃ x ∈ rest, isPySpace x = false := by
            rcases h with h | h
            · rcases h with ⟨x, hx, hxs⟩
              rcases List.mem_cons.mp hx with rfl | hx2
              · exact absurd hc (by simp [hxs])
              · exact ⟨x, hx2, hxs⟩
            · exact absurd (List.isEmpty_iff.mp ha) h
          simp only [pySplitGo, hc, if_true, ha]
          simpa using ih [] (Or.inl hrest)
        · simp [pySplitGo, hc, ha]
      · simp only [pySplitGo, hc, if_false]
        exact ih (c :: acc) (Or.inr (by simp))

theorem shortQueryCheck_ok (q w : String) (ws : List String) :
    ∃ b, shortQueryCheck q (w :: ws) = Except.ok b := by
  show ∃ b,
    (if (continuationWords.contains w ||
        (w :: ws).any fun x => informationWords.contains x) = true then
      Except.ok true
    else universalIndicatorCheck q) = Except.ok b
  by_cases hcw : (continuationWords.contains w ||
      (w :: ws).any fun x => informationWords.contains x) = true
  · rw [if_pos hcw]
    exact ⟨true, rfl⟩
  · rw [if_neg hcw]
    exact ⟨universalSearchIndicators.any fun ind => containsSub q ind, rfl⟩

theorem needsSearchCore_total (q : String)
    (h : ∃ c ∈ q.data, isPySpace c = false) :
    ∃ b, needsSearchCore q = Except.ok b := by
  have hsplit : pySplit q.data ≠ [] := pySplitGo_ne_nil q.data [] (Or.inl h)
  have hwords : needsSearchWords q ≠ [] :=
    fun hn => hsplit (List.map_eq_nil_iff.mp hn)
  unfold needsSearchCore
  by_cases hexp : explicitSearchMatch q = true
  · rw [if_pos hexp]
    exact ⟨true, rfl⟩
  · rw [if_neg hexp]
    by_cases hlen : (needsSearchWords q).length ≤ 3
    · rw [if_pos hlen]
      cases hm : needsSearchWords q with
      | nil => exact absurd hm hwords
      | cons w ws => exact shortQueryCheck_ok q w ws
    · rw [if_neg hlen]
      by_cases hfq : factualQuestionMatch q = true
      · rw [if_pos hfq]
        exact ⟨true, rfl⟩
      · rw [if_neg hfq]
        exact ⟨universalSearchIndicators.any fun ind => containsSub q ind, rfl⟩

/-- Claim C3, counterexample: on the empty query the classifier does not
return a boolean; after stripping, the word list is empty and the read of
words[0] raises an IndexError. -/
theorem needs_search_cex : needsSearch "" = Except.error () := rfl

/-- Claim C3, amended: the classifier is a pure deterministic function of
the lowercased query and returns a boolean for every query that contains a
non-whitespace character; on empty or whitespace-only queries it raises
instead of returning.  Case-insensitivity holds as stated: two queries with
the same lowercasing classify identically. -/
theorem needs_search_amended :
    (∀ query : String, pyStrip (pyLower query) ≠ "" →
      ∃ b, needsSearch query = Except.ok b) ∧
    (∀ q1 q2 : String, pyLower q1 = pyLower q2 →
      needsSearch q1 = needsSearch q2) := by
  constructor
  · intro query hq
    have hdata : pyStripList (pyLower query).data ≠ [] := by
      intro hnil
      exact hq (by simp [pyStrip, hnil])
    have hinner : ((pyLower query).data.dropWhile isPySpace).reverse.dropWhile isPySpace ≠ [] := by
      intro hnil
      exact hdata (by simp [pyStripList, hnil])
    rcases dropWhile_exists_not isPySpace
        ((pyLower query).data.dropWhile isPySpace).reverse hinner with ⟨c, hcmem, hcsp⟩
    have hcmem2 : c ∈ (pyStrip (pyLower query)).data := by
      show c ∈ pyStripList (pyLower query).data
      unfold pyStripList
      exact List.mem_reverse.mpr hcmem
    exact needsSearchCore_total (pyStrip (pyLower query)) ⟨c, hcmem2, hcsp⟩
  · intro q1 q2 h
    unfold needsSearch
    rw [h]

/-- Claim C3, witness: a concrete non-degenerate query classifies to a
boolean, and an uppercase variant classifies identically. -/
theorem needs_search_amended_witness :
    (∃ b, needsSearch "hello world" = Except.ok b) ∧
      needsSearch "HELLO World" = needsSearch "hello world" :=
  ⟨needs_search_amended.1 "hello world" (by decide),
   needs_search_amended.2 "HELLO World" "hello world" (by decide)⟩

/-- Claim C8: the parse step of the hypothesis generator never propagates a
failure: for every generated text and every behavior of the JSON parser it
returns either the successfully parsed record or, on parse failure, exactly
the fixed fallback record. -/
theorem hypothesis_parse_never_fails (jp : String → Option Hypothesis)
    (text : String) :
    (jp (hypothesisParseInput text) = none ∧
      generateHypothesisFromText jp text =
        ⟨some "a SaaS solution", some "businesses", some "product-led growth"⟩) ∨
    (∃ h, jp (hypothesisParseInput text) = some h ∧
      generateHypothesisFromText jp text = h) := by
  cases hj : jp (hypothesisParseInput text) with
  | none =>
      exact Or.inl ⟨rfl, by simp [generateHypothesisFromText, hj, fallbackHypothesis]⟩
  | some h =>
      exact Or.inr ⟨h, rfl, by simp [generateHypothesisFromText, hj]⟩

/-- Claim C4, failing evaluation: an onboarding answer of fewer than five
stripped characters stores the placeholder idea but leaves profile_complete
false, both at the handler level and in the store after a full request, so
the single onboarding stage is not exhausted and will consume the next
query as well. -/
theorem onboarding_short_answer_bug :
    handleOnboarding stubEnv ⟨false, "", "t0"⟩ "app" =
      (⟨false, "Unspecified SaaS startup", "t0"⟩,
       chunkEvents "Got it. What specific aspect of your SaaS business do you need help with today?",
       Except.ok ()) ∧
    (assist stubEnv (fun s => if s = "u" then some ⟨false, "", "t0"⟩ else none)
        "u" "app").1 "u" = some ⟨false, "Unspecified SaaS startup", "t0"⟩ :=
  ⟨rfl, rfl⟩

/-- Claim C9: for a session identifier absent from the store, the request
creates the profile record with its default values (incomplete profile,
empty idea, the current timestamp), streams exactly the fixed greeting and
first question, completes, and its outcome is independent of the
generation and search collaborators, which are never called. -/
theorem first_contact_deterministic (env env2 : Env) (mem : Mem)
    (userId prompt : String) (h : mem userId = none)
    (hnow : env.now = env2.now) :
    assist env mem userId prompt =
      (memUpdate mem userId ⟨false, "", env.now⟩,
       chunkEvents introMessage ++ [Event.streamComplete, Event.handlerComplete],
       Except.ok ()) ∧
    assist env mem userId prompt = assist env2 mem userId prompt := by
  constructor
  · simp only [assist, h, finishRun]
  · simp only [assist, h, hnow]

/-- Claim C9, witness: a fresh session served under two environments whose
collaborators differ arbitrarily. -/
theorem first_contact_deterministic_witness :
    assist stubEnv (fun _ => none) "u" "hi" =
      (memUpdate (fun _ => none) "u" ⟨false, "", stubEnv.now⟩,
       chunkEvents introMessage ++ [Event.streamComplete, Event.handlerComplete],
       Except.ok ()) ∧
    assist stubEnv (fun _ => none) "u" "hi" =
      assist errEnv (fun _ => none) "u" "hi" :=
  first_contact_deterministic stubEnv errEnv (fun _ => none) "u" "hi" rfl rfl

theorem finishRun_fst (mem : Mem) (tr : List Event) (r : Except Unit Unit) :
    (finishRun mem tr r).1 = mem := by
  cases r <;> rfl

theorem finishRun_ok (mem : Mem) (tr : List Event) :
    finishRun mem tr (Except.ok ()) =
      (mem, tr ++ [Event.streamComplete, Event.handlerComplete], Except.ok ()) := rfl

theorem finishRun_error (mem : Mem) (tr : List Event) (e : Unit) :
    finishRun mem tr (Except.error e) = (mem, tr, Except.error e) := rfl

theorem chunkEvents_nonCompletion (s : String) :
    ∀ e ∈ chunkEvents s, e ≠ Event.streamComplete ∧ e ≠ Event.handlerComplete := by
  intro e he
  rcases List.mem_map.mp he with ⟨c, _, rfl⟩
  exact ⟨by simp, by simp⟩

theorem handleOnboarding_nonCompletion (env : Env) (ud : UserData) (prompt : String) :
    ∀ e ∈ (handleOnboarding env ud prompt).2.1,
      e ≠ Event.streamComplete ∧ e ≠ Event.handlerComplete := by
  intro e he
  unfold handleOnboarding at he
  by_cases hlen : (pyStrip prompt).length < 5
  · rw [if_pos hlen] at he
    exact chunkEvents_nonCompletion _ e he
  · rw [if_neg hlen] at he
    cases hq : env.modelQuery (hypothesisPrompt prompt) with
    | error er => rw [hq] at he; simp at he
    | ok text =>
        rw [hq] at he
        exact chunkEvents_nonCompletion _ e he

theorem provideGrowthAdvice_nonCompletion (env : Env) (ud : UserData) (prompt : String) :
    ∀ e ∈ (provideGrowthAdvice env ud prompt).1,
      e ≠ Event.streamComplete ∧ e ≠ Event.handlerComplete := by
  intro e he
  unfold provideGrowthAdvice at he
  cases hq : env.modelQuery (advicePrompt ud.startup_idea prompt) with
  | error er => rw [hq] at he; simp at he
  | ok response =>
      rw [hq] at he
      exact chunkEvents_nonCompletion _ e he

theorem fallbackZero_nonCompletion (env : Env) (ud : UserData) (prompt : String) :
    ∀ e ∈ (fallbackZero env ud prompt).1,
      e ≠ Event.streamComplete ∧ e ≠ Event.handlerComplete := by
  intro e he
  unfold fallbackZero at he
  rcases List.mem_cons.mp he with rfl | he2
  · exact ⟨by simp, by simp⟩
  · exact provideGrowthAdvice_nonCompletion env ud prompt e he2

theorem searchEnhancedBody_nonCompletion (env : Env) (ud : UserData) (prompt : String) :
    ∀ e ∈ (searchEnhancedBody env ud prompt).1,
      e ≠ Event.streamComplete ∧ e ≠ Event.handlerComplete := by
  intro e he
  cases hs : env.searchCall (searchQueryOf ud prompt) with
  | error er => simp only [searchEnhancedBody, hs] at he; simp at he
  | ok res =>
      cases res with
      | none =>
          simp only [searchEnhancedBody, hs] at he
          exact fallbackZero_nonCompletion env ud prompt e he
      | some results =>
          simp only [searchEnhancedBody, hs] at he
          by_cases hemp : results.isEmpty = true
          · rw [if_pos hemp] at he
            exact fallbackZero_nonCompletion env ud prompt e he
          · rw [if_neg hemp] at he
            cases hq : env.modelQuery
                (enhancedPrompt ud.startup_idea prompt (results.take 3)) with
            | error er =>
                simp only [hq] at he
                simp at he
                subst he
                exact ⟨by simp, by simp⟩
            | ok resp =>
                simp only [hq] at he
                rcases List.mem_cons.mp he with rfl | he2
                · exact ⟨by simp, by simp⟩
                · exact chunkEvents_nonCompletion _ e he2

theorem provideSearchEnhancedAdvice_nonCompletion (env : Env) (ud : UserData)
    (prompt : String) :
    ∀ e ∈ (provideSearchEnhancedAdvice env ud prompt).1,
      e ≠ Event.streamComplete ∧ e ≠ Event.handlerComplete := by
  intro e he
  rcases hb : searchEnhancedBody env ud prompt with ⟨tr, r⟩
  have htr : ∀ x ∈ tr, x ≠ Event.streamComplete ∧ x ≠ Event.handlerComplete := by
    intro x hx
    exact searchEnhancedBody_nonCompletion env ud prompt x (by rw [hb]; exact hx)
  cases r with
  | ok u =>
      simp only [provideSearchEnhancedAdvice, hb] at he
      rcases List.mem_cons.mp he with rfl | he2
      · exact ⟨by simp, by simp⟩
      · exact htr e he2
  | error er =>
      simp only [provideSearchEnhancedAdvice, hb] at he
      rcases List.mem_cons.mp he with rfl | he2
      · exact ⟨by simp, by simp⟩
      · rcases List.mem_append.mp he2 with he3 | he4
        · exact htr e he3
        · rcases List.mem_cons.mp he4 with rfl | he5
          · exact ⟨by simp, by simp⟩
          · exact provideGrowthAdvice_nonCompletion env ud prompt e he5

/-- Claim C2, counterexample: when the generation capability raises on the
standard-advice path of a returning onboarded user, the exception
propagates out of assist before lines 114-115 run, so the FINAL_RESPONSE
stream is never closed and completion is never signalled: the trace is
empty and the request ends in the error outcome. -/
theorem completion_cex :
    (assist errEnv (fun s => if s = "u" then some ⟨true, "idea", "t0"⟩ else none)
        "u" "thanks that helps a lot").2 = ([], Except.error ()) := rfl

/-- Claim C2, amended: whenever assist returns without an uncaught
exception, which covers the five listed paths when all external calls
succeed, the FINAL_RESPONSE stream is closed and completion is signalled
exactly once, as the final two events; when the generation capability or
the classifier raises, the exception propagates before the close. -/
theorem completion_signaled_once (env : Env) (mem : Mem) (userId prompt : String)
    (h : (assist env mem userId prompt).2.2 = Except.ok ()) :
    ∃ tr0, (assist env mem userId prompt).2.1 =
        tr0 ++ [Event.streamComplete, Event.handlerComplete] ∧
      ∀ e ∈ tr0, e ≠ Event.streamComplete ∧ e ≠ Event.handlerComplete := by
  cases hmem : mem userId with
  | none =>
      simp only [assist, hmem, finishRun]
      exact ⟨chunkEvents introMessage, rfl, chunkEvents_nonCompletion introMessage⟩
  | some ud =>
      cases hns : needsSearch prompt with
      | error e =>
          simp only [assist, hmem, hns] at h
          exact absurd h (by simp)
      | ok ns =>
          simp only [assist, hmem, hns] at h ⊢
          by_cases hpc : ud.profile_complete = false
          · rw [if_pos hpc] at h ⊢
            cases hr : (handleOnboarding env ud prompt).2.2 with
            | error er =>
                rw [hr] at h
                exact absurd h (by simp [finishRun])
            | ok u =>
                exact ⟨(handleOnboarding env ud prompt).2.1, rfl,
                  handleOnboarding_nonCompletion env ud prompt⟩
          · rw [if_neg hpc] at h ⊢
            by_cases hb : ns = true
            · rw [if_pos hb] at h ⊢
              cases hr : (provideSearchEnhancedAdvice env ud prompt).2 with
              | error er =>
                  rw [hr] at h
                  exact absurd h (by simp [finishRun])
              | ok u =>
                  exact ⟨(provideSearchEnhancedAdvice env ud prompt).1, rfl,
                    provideSearchEnhancedAdvice_nonCompletion env ud prompt⟩
            · rw [if_neg hb] at h ⊢
              cases hr : (provideGrowthAdvice env ud prompt).2 with
              | error er =>
                  rw [hr] at h
                  exact absurd h (by simp [finishRun])
              | ok u =>
                  exact ⟨(provideGrowthAdvice env ud prompt).1, rfl,
                    provideGrowthAdvice_nonCompletion env ud prompt⟩

/-- Claim C2, witness: an onboarding-greeting request that returns
normally closes the stream and signals completion exactly once. -/
theorem completion_signaled_once_witness :
    ∃ tr0, (assist stubEnv (fun _ => none) "u" "hi").2.1 =
        tr0 ++ [Event.streamComplete, Event.handlerComplete] ∧
      ∀ e ∈ tr0, e ≠ Event.streamComplete ∧ e ≠ Event.handlerComplete :=
  completion_signaled_once stubEnv (fun _ => none) "u" "hi" rfl

theorem assist_preserves_complete (env : Env) (mem : Mem) (u p sid : String)
    (ud : UserData) (hm : mem sid = some ud) (hc : ud.profile_complete = true) :
    ∃ ud2, (assist env mem u p).1 sid = some ud2 ∧ ud2.profile_complete = true := by
  cases hmu : mem u with
  | none =>
      simp only [assist, hmu, finishRun]
      by_cases hsu : sid = u
      · subst hsu
        exact absurd (hm.symm.trans hmu) (by simp)
      · exact ⟨ud, by simp [memUpdate, hsu, hm], hc⟩
  | some udU =>
      cases hns : needsSearch p with
      | error e =>
          simp only [assist, hmu, hns]
          exact ⟨ud, hm, hc⟩
      | ok ns =>
          simp only [assist, hmu, hns]
          by_cases hpc : udU.profile_complete = false
          · rw [if_pos hpc]
            by_cases hsu : sid = u
            · subst hsu
              have h2 : some ud = some udU := hm.symm.trans hmu
              injection h2 with h3
              rw [← h3] at hpc
              rw [hc] at hpc
              exact absurd hpc (by simp)
            · rw [finishRun_fst]
              exact ⟨ud, by simp [memUpdate, hsu, hm], hc⟩
          · rw [if_neg hpc]
            by_cases hb : ns = true
            · rw [if_pos hb, finishRun_fst]
              exact ⟨ud, hm, hc⟩
            · rw [if_neg hb, finishRun_fst]
              exact ⟨ud, hm, hc⟩

theorem runRequests_preserves_complete (env : Env) (reqs : List (String × String)) :
    ∀ (mem : Mem) (sid : String) (ud : UserData), mem sid = some ud →
      ud.profile_complete = true →
      ∃ ud2, runRequests env mem reqs sid = some ud2 ∧ ud2.profile_complete = true := by
  induction reqs with
  | nil => intro mem sid ud hm hc; exact ⟨ud, hm, hc⟩
  | cons r rest ih =>
      intro mem sid ud hm hc
      rcases r with ⟨u, p⟩
      rcases assist_preserves_complete env mem u p sid ud hm hc with ⟨ud2, hm2, hc2⟩
      exact ih ((assist env mem u p).1) sid ud2 hm2 hc2

/-- Claim C5: profile_complete is initialized to false when the profile
record is created, and it is monotone: across any further sequence of
requests, a record whose profile_complete is true keeps it true. -/
theorem profile_complete_monotone (env : Env) (mem : Mem) :
    (∀ userId prompt, mem userId = none →
      (assist env mem userId prompt).1 userId = some ⟨false, "", env.now⟩) ∧
    (∀ (reqs : List (String × String)) (sid : String) (ud : UserData),
      mem sid = some ud → ud.profile_complete = true →
      ∃ ud2, runRequests env mem reqs sid = some ud2 ∧
        ud2.profile_complete = true) := by
  constructor
  · intro userId prompt h
    simp only [assist, h, finishRun_fst]
    simp [memUpdate]
  · intro reqs sid ud hm hc
    exact runRequests_preserves_complete env reqs mem sid ud hm hc

/-- Claim C5, witness: a fresh record is created incomplete, and a
completed record stays completed across a concrete request sequence that
includes further onboarding, search and advice traffic. -/
theorem profile_complete_monotone_witness :
    (assist stubEnv (fun _ => none) "u" "hi").1 "u" =
        some ⟨false, "", stubEnv.now⟩ ∧
    ∃ ud2, runRequests stubEnv
        (fun s => if s = "u" then some ⟨true, "idea", "t0"⟩ else none)
        [("u", "hello there"), ("v", "hi"), ("u", "app")] "u" = some ud2 ∧
      ud2.profile_complete = true :=
  ⟨(profile_complete_monotone stubEnv (fun _ => none)).1 "u" "hi" rfl,
   (profile_complete_monotone stubEnv
      (fun s => if s = "u" then some ⟨true, "idea", "t0"⟩ else none)).2
      [("u", "hello there"), ("v", "hi"), ("u", "app")] "u"
      ⟨true, "idea", "t0"⟩ rfl rfl⟩

/-- Claim C7: whenever the search collaborator raises or returns a missing
or empty result list, the search-augmented path absorbs the failure: a
SEARCH_ERROR notice is emitted and the final response is produced by the
standard-advice path, whose trace follows the notice and whose outcome
becomes the outcome of the whole path. -/
theorem search_fallback (env : Env) (ud : UserData) (prompt : String)
    (h : env.searchCall (searchQueryOf ud prompt) = Except.error () ∨
         env.searchCall (searchQueryOf ud prompt) = Except.ok none ∨
         env.searchCall (searchQueryOf ud prompt) = Except.ok (some [])) :
    ∃ t1 msg, (provideSearchEnhancedAdvice env ud prompt).1 =
        t1 ++ Event.textBlock "SEARCH_ERROR" msg ::
          (provideGrowthAdvice env ud prompt).1 ∧
      (provideSearchEnhancedAdvice env ud prompt).2 =
        (provideGrowthAdvice env ud prompt).2 := by
  rcases hg : provideGrowthAdvice env ud prompt with ⟨gtr, gr⟩
  rcases h with hs | hs | hs
  · have hb : searchEnhancedBody env ud prompt = ([], Except.error ()) := by
      simp only [searchEnhancedBody, hs]
    refine ⟨[Event.textBlock "SEARCH_NOTIFICATION" "Searching for market data..."],
      "Search couldn\x27t be completed. Here\x27s my best advice:", ?_, ?_⟩
    · simp [provideSearchEnhancedAdvice, hb, hg]
    · simp [provideSearchEnhancedAdvice, hb, hg]
  · have hb : searchEnhancedBody env ud prompt =
        (Event.textBlock "SEARCH_ERROR" "No search results found. Here\x27s my best advice:" :: gtr,
         gr) := by
      simp [searchEnhancedBody, hs, fallbackZero, hg]
    cases gr with
    | ok u =>
        refine ⟨[Event.textBlock "SEARCH_NOTIFICATION" "Searching for market data..."],
          "No search results found. Here\x27s my best advice:", ?_, ?_⟩
        · simp [provideSearchEnhancedAdvice, hb]
        · simp [provideSearchEnhancedAdvice, hb]
    | error er =>
        refine ⟨Event.textBlock "SEARCH_NOTIFICATION" "Searching for market data..." ::
            Event.textBlock "SEARCH_ERROR" "No search results found. Here\x27s my best advice:" :: gtr,
          "Search couldn\x27t be completed. Here\x27s my best advice:", ?_, ?_⟩
        · simp [provideSearchEnhancedAdvice, hb, hg]
        · simp [provideSearchEnhancedAdvice, hb, hg]
  · have hb : searchEnhancedBody env ud prompt =
        (Event.textBlock "SEARCH_ERROR" "No search results found. Here\x27s my best advice:" :: gtr,
         gr) := by
      simp [searchEnhancedBody, hs, fallbackZero, hg]
    cases gr with
    | ok u =>
        refine ⟨[Event.textBlock "SEARCH_NOTIFICATION" "Searching for market data..."],
          "No search results found. Here\x27s my best advice:", ?_, ?_⟩
        · simp [provideSearchEnhancedAdvice, hb]
        · simp [provideSearchEnhancedAdvice, hb]
    | error er =>
        refine ⟨Event.textBlock "SEARCH_NOTIFICATION" "Searching for market data..." ::
            Event.textBlock "SEARCH_ERROR" "No search results found. Here\x27s my best advice:" :: gtr,
          "Search couldn\x27t be completed. Here\x27s my best advice:", ?_, ?_⟩
        · simp [provideSearchEnhancedAdvice, hb, hg]
        · simp [provideSearchEnhancedAdvice, hb, hg]

/-- An environment whose search capability always raises. -/
def searchErrEnv : Env :=
  ⟨fun _ => Except.ok "Try SEO.", fun _ => Except.error (), fun _ => none, "t0"⟩

/-- Claim C7, witness: a concrete search-augmented request whose search
call raises is answered through the standard-advice path after a
SEARCH_ERROR notice. -/
theorem search_fallback_witness :
    ∃ t1 msg, (provideSearchEnhancedAdvice searchErrEnv
        ⟨true, "idea", "t0"⟩ "latest trends").1 =
        t1 ++ Event.textBlock "SEARCH_ERROR" msg ::
          (provideGrowthAdvice searchErrEnv ⟨true, "idea", "t0"⟩ "latest trends").1 ∧
      (provideSearchEnhancedAdvice searchErrEnv ⟨true, "idea", "t0"⟩ "latest trends").2 =
        (provideGrowthAdvice searchErrEnv ⟨true, "idea", "t0"⟩ "latest trends").2 :=
  search_fallback searchErrEnv ⟨true, "idea", "t0"⟩ "latest trends" (Or.inl rfl)

/-- Claim C10: when the search call succeeds with a non-empty result list
but the subsequent generation call raises, the same except handler absorbs
the exception: the emitted trace is the notification, the SEARCH_RESULTS
block, a SEARCH_ERROR block, and then the standard-advice path, whose
outcome, including its own second generation call, becomes the outcome of
the whole path, so the first generation failure is never surfaced. -/
theorem search_gen_failure_absorbed (env : Env) (ud : UserData) (prompt : String)
    (results : List SearchItem)
    (hs : env.searchCall (searchQueryOf ud prompt) = Except.ok (some results))
    (hne : results ≠ [])
    (hq : env.modelQuery (enhancedPrompt ud.startup_idea prompt (results.take 3)) =
      Except.error ()) :
    (provideSearchEnhancedAdvice env ud prompt).1 =
      Event.textBlock "SEARCH_NOTIFICATION" "Searching for market data..." ::
        Event.jsonBlock "SEARCH_RESULTS" (results.take 3) ::
        Event.textBlock "SEARCH_ERROR" "Search couldn\x27t be completed. Here\x27s my best advice:" ::
        (provideGrowthAdvice env ud prompt).1 ∧
    (provideSearchEnhancedAdvice env ud prompt).2 =
      (provideGrowthAdvice env ud prompt).2 := by
  have hemp : results.isEmpty = false := by
    cases results with
    | nil => exact absurd rfl hne
    | cons a as => rfl
  have hb : searchEnhancedBody env ud prompt =
      ([Event.jsonBlock "SEARCH_RESULTS" (results.take 3)], Except.error ()) := by
    simp [searchEnhancedBody, hs, hemp, hq]
  constructor
  · simp [provideSearchEnhancedAdvice, hb]
  · simp [provideSearchEnhancedAdvice, hb]

/-- An environment whose search succeeds with one result and whose
generation capability always raises. -/
def genFailEnv : Env :=
  ⟨fun _ => Except.error (),
   fun _ => Except.ok (some [⟨"t", "u", "s"⟩]),
   fun _ => none, "t0"⟩

/-- Claim C10, witness: a concrete request on which the search succeeds and
the generation call raises inside the try block. -/
theorem search_gen_failure_absorbed_witness :
    (provideSearchEnhancedAdvice genFailEnv ⟨true, "idea", "t0"⟩ "q").1 =
      Event.textBlock "SEARCH_NOTIFICATION" "Searching for market data..." ::
        Event.jsonBlock "SEARCH_RESULTS" (([⟨"t", "u", "s"⟩] : List SearchItem).take 3) ::
        Event.textBlock "SEARCH_ERROR" "Search couldn\x27t be completed. Here\x27s my best advice:" ::
        (provideGrowthAdvice genFailEnv ⟨true, "idea", "t0"⟩ "q").1 ∧
    (provideSearchEnhancedAdvice genFailEnv ⟨true, "idea", "t0"⟩ "q").2 =
      (provideGrowthAdvice genFailEnv ⟨true, "idea", "t0"⟩ "q").2 :=
  search_gen_failure_absorbed genFailEnv ⟨true, "idea", "t0"⟩ "q"
    [⟨"t", "u", "s"⟩] rfl (by simp) rfl

end StartupWhisper
